import Mathlib

/-!
# OpenSeadragonAnnotator: the view-layer adapter between the overlay and the editor

A shallow embedding of `src/OpenSeadragonAnnotator.jsx`.

* The component's local UI state is a record; `setState` merges a partial update into it.
  The update is applied at once: no handler reads the state after it has updated it, so
  a batched update yields the same final state and the same calls. The completion
  callback of `setState` runs when the update is applied.
* Every handler is a function from a `World` (state, allocation counter for object
  identity, log of the external calls made so far) to a `Completion`: either a normal
  return or an abrupt one (a thrown JavaScript error), both with the world reached.
* Calls that leave the component (host callbacks in `props`, methods of the overlay
  `annotationLayer`, `console`) are appended to the log, each with the component state
  at the moment of the call.
* Values returned by the overlay (`getSelected`, `getAnnotations`, `selectAnnotation`)
  are arguments of the corresponding operation.
* The value of `JSON.parse(JSON.stringify(x))` is computed by the JavaScript engine and is
  an argument of `handleUpdateTarget`, like the values returned by the overlay.
-/

namespace OSD

/-! ## JSON values -/

mutual
/-- A JSON-representable JavaScript value; `N` is the type of finite numbers. An object
lists its properties in enumeration order. -/
inductive Json (N : Type) : Type
  | null
  | bool (b : Bool)
  | num (n : N)
  | str (s : List Char)
  | arr (elems : Elems N)
  | obj (members : Members N)
/-- The elements of an array. -/
inductive Elems (N : Type) : Type
  | nil
  | cons (head : Json N) (tail : Elems N)
/-- The properties of an object. -/
inductive Members (N : Type) : Type
  | nil
  | cons (key : List Char) (value : Json N) (tail : Members N)
end

/-- The finite numbers of the JavaScript engine: `isZero` tells the numbers that
`ToBoolean` sends to false. -/
class JsNumber (N : Type) where
  isZero : N → Bool

/-- `ToBoolean` on JSON-representable values. -/
def Json.truthy {N : Type} [JsNumber N] : Json N → Bool
  | .null => false
  | .bool b => b
  | .num n => !JsNumber.isZero n
  | .str s => !s.isEmpty
  | .arr _ => true
  | .obj _ => true

/-- The integers as numbers. -/
instance : JsNumber Int where
  isZero := fun z => decide (z = 0)

/-! ## The component -/

/-- A DOM element, by identity. -/
abbrev DomElement := Nat

/-- Modelled from the spec: the annotation objects of the external editor library
(`WebAnnotation` and `Selection`), which are not part of this repository. `ref` is the
identity of the JavaScript object; `id`, `isSelection` and `target` are the properties the
component reads or overrides; `body` stands for the remaining content. -/
structure Annotation (N : Type) where
  ref : Nat
  id : String
  isSelection : Bool
  target : Json N
  body : Json N

/-- The local UI state of the component. `beforeHeadlessModify` is read by `saveSelected`;
it is absent from the initial state. -/
structure State (N : Type) where
  selectedAnnotation : Option ( Annotation N)
  selectedDOMElement : Option DomElement
  modifiedTarget : Json N
  beforeHeadlessModify : Option ( Annotation N)

/-- The initial state of the component (`state = { ... }`). -/
def initialState (N : Type) : State N :=
  { selectedAnnotation := none, selectedDOMElement := none, modifiedTarget := Json.null,
    beforeHeadlessModify := none }

/-- The argument of `setState`: the keys present, with their new values. -/
structure StateUpdate (N : Type) where
  selectedAnnotation : Option (Option ( Annotation N))
  selectedDOMElement : Option (Option DomElement)
  modifiedTarget : Option (Json N)

/-- React merges the update into the state: keys absent from the update are kept. -/
def State.merge {N : Type} (s : State N) (u : StateUpdate N) : State N :=
  { selectedAnnotation := u.selectedAnnotation.getD s.selectedAnnotation,
    selectedDOMElement := u.selectedDOMElement.getD s.selectedDOMElement,
    modifiedTarget := u.modifiedTarget.getD s.modifiedTarget,
    beforeHeadlessModify := s.beforeHeadlessModify }

/-- The two host handlers that `onCreateOrUpdateAnnotation` is instantiated with. -/
inductive SaveMethod
  | onAnnotationCreated
  | onAnnotationUpdated
  deriving DecidableEq, Repr

/-- The second argument of a host save handler. -/
inductive SaveArg (N : Type)
  /-- The value `previous.clone()`. -/
  | previous (p : Annotation N)
  /-- The callback `overrideAnnotationId(annotation)`, closed over `original`. -/
  | overrideCallback (original : Annotation N)

/-- The first argument of `fitBounds` and `panTo`. -/
inductive AnnotationOrId (N : Type)
  | ofAnnotation (a : Annotation N)
  | ofId (id : String)

/-- A call that leaves the component. -/
inductive Call (N : Type)
  /-- A call `props.onSelectionCreated(selection)`. -/
  | onSelectionCreated (selection : Annotation N)
  /-- A call `props.onAnnotationSelected(a)`. -/
  | onAnnotationSelected (a : Annotation N)
  /-- A call `props.onSelectionTargetChanged(target)`. -/
  | onSelectionTargetChanged (target : Json N)
  /-- A call `props[method](a, second)`. -/
  | save (method : SaveMethod) (a : Annotation N) (second : SaveArg N)
  /-- A call `props.onAnnotationDeleted(a)`. -/
  | onAnnotationDeleted (a : Annotation N)
  /-- A call `props.onSelectionCanceled(a)`. -/
  | onSelectionCanceled (a : Annotation N)
  /-- A call `annotationLayer.deselect()`. -/
  | deselect
  /-- A call `annotationLayer.addOrUpdateAnnotation(a, previous)`. -/
  | addOrUpdateAnnotation (a : Annotation N) (previous : Option ( Annotation N))
  /-- A call `annotationLayer.removeAnnotation(a)`. -/
  | removeAnnotation (a : Annotation N)
  /-- A call `annotationLayer.overrideId(id, forcedId)`. -/
  | overrideId (id : String) (forcedId : String)
  /-- A call `annotationLayer.fitBounds(annotationOrId, immediately)`. -/
  | fitBounds (arg : AnnotationOrId N) (immediately : Bool)
  /-- A call `annotationLayer.panTo(annotationOrId, immediately)`. -/
  | panTo (arg : AnnotationOrId N) (immediately : Bool)
  /-- A call `annotationLayer.getAnnotations()`. -/
  | getAnnotations
  /-- A call `annotationLayer.getSelected()`. -/
  | getSelected
  /-- A call `annotationLayer.getSelectedImageSnippet()`. -/
  | getSelectedImageSnippet
  /-- A call `annotationLayer.selectAnnotation(arg)`. -/
  | selectAnnotation (arg : AnnotationOrId N)
  /-- A call `annotationLayer.init(annotations)`. -/
  | init (annotations : List ( Annotation N))
  /-- A call `annotationLayer.setDrawingEnabled(enable)`. -/
  | setDrawingEnabled (enable : Bool)
  /-- A call `annotationLayer.setDrawingTool(shape)`. -/
  | setDrawingTool (shape : String)
  /-- A call `console.log(message)`. -/
  | consoleLog (message : String)
  /-- A call `console.warn(message)`. -/
  | consoleWarn (message : String)

/-- A thrown JavaScript error. -/
inductive JsError
  /-- A property of `undefined` was read. -/
  | typeError
  /-- The text given to `JSON.parse` is not JSON. -/
  | syntaxError
  deriving DecidableEq, Repr

/-- The component and its surroundings: the state, the next free object identity, and the
calls made so far, each with the state at the moment of the call. -/
structure World (N : Type) where
  state : State N
  nextRef : Nat
  log : List (Call N × State N)

/-- The calls made so far, in order. -/
def World.calls {N : Type} (w : World N) : List (Call N) := w.log.map Prod.fst

/-- How a piece of code ends: it returns a value or throws, in the world it reached. -/
inductive Completion (N : Type) (α : Type)
  | normal (value : α) (w : World N)
  | abrupt (error : JsError) (w : World N)

/-- The world in which the code ended. -/
def Completion.world {N α : Type} : Completion N α → World N
  | .normal _ w => w
  | .abrupt _ w => w

/-- The error thrown, if any. -/
def Completion.error {N α : Type} : Completion N α → Option JsError
  | .normal _ _ => none
  | .abrupt e _ => some e

/-- A piece of code of the component. -/
def Action (N : Type) (α : Type) : Type := World N → Completion N α

/-- Sequencing: a throw skips what follows. -/
def Action.bind {N α β : Type} (x : Action N α) (f : α → Action N β) : Action N β :=
  fun w =>
    match x w with
    | .normal a w1 => f a w1
    | .abrupt e w1 => .abrupt e w1

instance (N : Type) : Monad (Action N) where
  pure := fun a w => .normal a w
  bind := Action.bind

/-- Throws `e`. -/
def throwJs {N α : Type} (e : JsError) : Action N α := fun w => .abrupt e w

/-- Reads `this.state`. -/
def getState {N : Type} : Action N (State N) := fun w => .normal w.state w

/-- `this.setState(update)`. -/
def setState {N : Type} (u : StateUpdate N) : Action N Unit :=
  fun w => .normal () { w with state := w.state.merge u }

/-- `this.setState(update, callback)`: the callback runs once the update is applied. -/
def setStateThen {N : Type} (u : StateUpdate N) (callback : Action N Unit) : Action N Unit :=
  fun w => callback { w with state := w.state.merge u }

/-- Performs an external call. -/
def call {N : Type} (c : Call N) : Action N Unit :=
  fun w => .normal () { w with log := w.log ++ [(c, w.state)] }

/-- Modelled from the spec: the object that `annotation.clone(props)` of the external
editor library builds. It is a new object (identity `ref`) with the content of the
original, where `target` is replaced when `props` has one. -/
def Annotation.cloned {N : Type} (a : Annotation N) (target : Option (Json N)) (ref : Nat) :
    Annotation N :=
  { a with ref := ref, target := target.getD a.target }

/-- The call `annotation.clone(props)`: allocates the clone. -/
def clone {N : Type} (a : Annotation N) (target : Option (Json N)) : Action N ( Annotation N) :=
  fun w => .normal (a.cloned target w.nextRef) { w with nextRef := w.nextRef + 1 }

/-- Shorthand: `clearState = () => this.setState({ ... null ... })`. -/
def clearState {N : Type} : Action N Unit :=
  setState { selectedAnnotation := some none, selectedDOMElement := some none,
             modifiedTarget := some Json.null }

/-- The handler `handleCreateSelection = selection => ...`. -/
def handleCreateSelection {N : Type} (selection : Annotation N) : Action N Unit := do
  let c ← clone selection none
  call (.onSelectionCreated c)

/-- The event of the overlay's `select`. -/
structure SelectEvent (N : Type) where
  ann : Option ( Annotation N)
  element : Option DomElement
  skipEvent : Bool

/-- The handler `handleSelect = evt => ...`. -/
def handleSelect {N : Type} (evt : SelectEvent N) : Action N Unit :=
  match evt.ann with
  | some ann => do
    setState { selectedAnnotation := some (some ann), selectedDOMElement := some evt.element,
               modifiedTarget := none }
    if !ann.isSelection && !evt.skipEvent then
      let c ← clone ann none
      call (.onAnnotationSelected c)
  | none => clearState

/-- The handler `handleUpdateTarget = (selectedDOMElement, modifiedTarget) => ...`. The
value of `JSON.parse(JSON.stringify(modifiedTarget))` is computed by the JavaScript engine
and is the argument `jsonCopy`: a value, or the error thrown. -/
def handleUpdateTarget {N : Type} (selectedDOMElement : Option DomElement)
    (modifiedTarget : Json N) (jsonCopy : Except JsError (Json N)) : Action N Unit := do
  setState { selectedAnnotation := none, selectedDOMElement := some selectedDOMElement,
             modifiedTarget := some modifiedTarget }
  match jsonCopy with
  | .error e => throwJs e
  | .ok c => call (Call.onSelectionTargetChanged c)

/-- The handler `handleMoveSelection = selectedDOMElement => ...`. -/
def handleMoveSelection {N : Type} (selectedDOMElement : Option DomElement) : Action N Unit :=
  setState { selectedAnnotation := none, selectedDOMElement := some selectedDOMElement,
             modifiedTarget := none }

/-- The callback `overrideAnnotationId = originalAnnotation => forcedId => ...`. -/
def overrideAnnotationId {N : Type} ( originalAnnotation : Annotation N) (forcedId : String) :
    Action N Unit := do
  let id := originalAnnotation.id
  let s ← getState
  if s.selectedAnnotation.isSome then
    setStateThen { selectedAnnotation := some none, selectedDOMElement := some none,
                   modifiedTarget := some Json.null }
      (call (.overrideId id forcedId))
  else
    call (.overrideId id forcedId)

/-- The handler `onCreateOrUpdateAnnotation = method => (annotation, previous) => ...`. -/
def onCreateOrUpdateAnnotation {N : Type} [JsNumber N] (method : SaveMethod)
    (ann : Annotation N) (previous : Option ( Annotation N)) : Action N Unit := do
  let s ← getState
  let a ← if s.modifiedTarget.truthy then clone ann (some s.modifiedTarget) else clone ann none
  match previous with
  | some p =>
    let pc ← clone p none
    call (.save method a (.previous pc))
  | none => call (.save method a (.overrideCallback ann))
  clearState
  call .deselect
  call (Call.addOrUpdateAnnotation a previous)

/-- The handler `onDeleteAnnotation = annotation => ...`. -/
def onDeleteAnnotation {N : Type} (ann : Annotation N) : Action N Unit := do
  clearState
  call (Call.removeAnnotation ann)
  call (.onAnnotationDeleted ann)

/-- The handler `onCancelAnnotation = annotation => ...`; the argument is absent when the
function is called without one. -/
def onCancelAnnotation {N : Type} (ann : Option ( Annotation N)) : Action N Unit := do
  clearState
  call .deselect
  match ann with
  | none => throwJs .typeError
  | some a => if a.isSelection then call (.onSelectionCanceled a)

/-- The API method `addAnnotation = annotation => ...`. -/
def addAnnotation {N : Type} (ann : Annotation N) : Action N Unit := do
  let c ← clone ann none
  call (Call.addOrUpdateAnnotation c none)

/-- The API method `cancelSelected = () => ...`. -/
def cancelSelected {N : Type} : Action N Unit := do
  let s ← getState
  match s.selectedAnnotation with
  | some selected => onCancelAnnotation (some selected)
  | none => pure ()

/-- The API method `fitBounds = (annotationOrId, immediately) => ...`. -/
def fitBounds {N : Type} (arg : AnnotationOrId N) (immediately : Bool) : Action N Unit :=
  call (.fitBounds arg immediately)

/-- Clones the annotations of a list one after the other (`list.map(a => a.clone())`). -/
def cloneAll {N : Type} : List ( Annotation N) → Action N (List ( Annotation N))
  | [] => pure []
  | a :: rest => do
    let c ← clone a none
    let cs ← cloneAll rest
    pure (c :: cs)

/-- The API method `getAnnotations = () => ...`; `layerResult` is what the overlay returns. -/
def getAnnotations {N : Type} (layerResult : List ( Annotation N)) :
    Action N (List ( Annotation N)) := do
  call .getAnnotations
  cloneAll layerResult

/-- The API method `getSelected = () => ...`; `layerResult` is the annotation of what the
overlay returns. -/
def getSelected {N : Type} (layerResult : Option ( Annotation N)) :
    Action N (Option ( Annotation N)) := do
  call .getSelected
  match layerResult with
  | some selected =>
    let c ← clone selected none
    pure (some c)
  | none => pure none

/-- The API method `getSelectedImageSnippet = () => ...`. -/
def getSelectedImageSnippet {N : Type} : Action N Unit :=
  call .getSelectedImageSnippet

/-- The API method `panTo = (annotationOrId, immediately) => ...`. -/
def panTo {N : Type} (arg : AnnotationOrId N) (immediately : Bool) : Action N Unit :=
  call (.panTo arg immediately)

/-- The API method `removeAnnotation = annotation => ...`. -/
def removeAnnotation {N : Type} (ann : Annotation N) : Action N Unit := do
  let c ← clone ann none
  call (Call.removeAnnotation c)

/-- The API method `saveSelected = () => ...`. The method `toAnnotation` of a selection
belongs to the external editor library and is a parameter. -/
def saveSelected {N : Type} [JsNumber N] ( toAnnotation : Annotation N → Annotation N) :
    Action N Unit := do
  let s ← getState
  match s.selectedAnnotation with
  | some a =>
    if a.isSelection then
      onCreateOrUpdateAnnotation .onAnnotationCreated ( toAnnotation a) (some a)
    else
      match s.beforeHeadlessModify with
      | some before => onCreateOrUpdateAnnotation .onAnnotationUpdated a (some before)
      | none =>
        call (.consoleLog "No change - canceling")
        onCancelAnnotation none
  | none => pure ()

/-- The API method `selectAnnotation = arg => ...`; `layerResult` is what the overlay
returns. -/
def selectAnnotation {N : Type} (arg : AnnotationOrId N) (layerResult : Option ( Annotation N)) :
    Action N (Option ( Annotation N)) := do
  call (Call.selectAnnotation arg)
  match layerResult with
  | some ann =>
    let c ← clone ann none
    pure (some c)
  | none =>
    clearState
    pure none

/-- The API method `setAnnotations = annotations => ...`. -/
def setAnnotations {N : Type} (annotations : List ( Annotation N)) : Action N Unit := do
  let cs ← cloneAll annotations
  call (.init cs)

/-- The API method `setDrawingEnabled = enable => ...`. -/
def setDrawingEnabled {N : Type} (enable : Bool) : Action N Unit :=
  call (.setDrawingEnabled enable)

/-- The API method `setDrawingTool = shape => ...`. -/
def setDrawingTool {N : Type} (shape : String) : Action N Unit :=
  call (.setDrawingTool shape)

/-- The API method `updateSelected = annotation => ...`. -/
def updateSelected {N : Type} (ann : Option ( Annotation N)) : Action N Unit := do
  let s ← getState
  if s.selectedAnnotation.isSome then
    setState { selectedAnnotation := some ann, selectedDOMElement := none, modifiedTarget := none }
  else
    call (.consoleWarn "No selection - cannot update")

/-- The state after `clearState`: the three keys of the initial state are reset. -/
def State.cleared {N : Type} (s : State N) : State N :=
  { selectedAnnotation := none, selectedDOMElement := none, modifiedTarget := Json.null,
    beforeHeadlessModify := s.beforeHeadlessModify }

/-- The host save handlers invoked among `calls`, with their arguments, in order. -/
def savedBy {N : Type} : List (Call N) → List (SaveMethod × Annotation N × SaveArg N)
  | [] => []
  | .save m a second :: rest => (m, a, second) :: savedBy rest
  | _ :: rest => savedBy rest

/-- An operation on the component: an event of the overlay, a callback of the editor, the
id-override callback handed to the host, or a method of the external API. -/
inductive Op (N : Type)
  | handleCreateSelection (selection : Annotation N)
  | handleSelect (evt : SelectEvent N)
  | handleUpdateTarget (element : Option DomElement) (target : Json N)
      (jsonCopy : Except JsError (Json N))
  | handleMoveSelection (element : Option DomElement)
  | overrideAnnotationId (original : Annotation N) (forcedId : String)
  | onCreateOrUpdateAnnotation (method : SaveMethod) (ann : Annotation N)
      (previous : Option ( Annotation N))
  | onDeleteAnnotation (ann : Annotation N)
  | onCancelAnnotation (ann : Option ( Annotation N))
  | addAnnotation (ann : Annotation N)
  | cancelSelected
  | fitBounds (arg : AnnotationOrId N) (immediately : Bool)
  | getAnnotations (layerResult : List ( Annotation N))
  | getSelected (layerResult : Option ( Annotation N))
  | getSelectedImageSnippet
  | panTo (arg : AnnotationOrId N) (immediately : Bool)
  | removeAnnotation (ann : Annotation N)
  | saveSelected ( toAnnotation : Annotation N → Annotation N)
  | selectAnnotation (arg : AnnotationOrId N) (layerResult : Option ( Annotation N))
  | setAnnotations (annotations : List ( Annotation N))
  | setDrawingEnabled (enable : Bool)
  | setDrawingTool (shape : String)
  | updateSelected (ann : Option ( Annotation N))

/-- Forgets the value an action returns. -/
def discard {N α : Type} (x : Action N α) : Action N Unit :=
  fun w =>
    match x w with
    | .normal _ w1 => .normal () w1
    | .abrupt e w1 => .abrupt e w1

/-- Runs an operation. -/
def Op.run {N : Type} [JsNumber N] : Op N → Action N Unit
  | .handleCreateSelection selection => OSD.handleCreateSelection selection
  | .handleSelect evt => OSD.handleSelect evt
  | .handleUpdateTarget element target jsonCopy =>
    OSD.handleUpdateTarget element target jsonCopy
  | .handleMoveSelection element => OSD.handleMoveSelection element
  | .overrideAnnotationId original forcedId => OSD.overrideAnnotationId original forcedId
  | Op.onCreateOrUpdateAnnotation method ann previous =>
    OSD.onCreateOrUpdateAnnotation method ann previous
  | Op.onDeleteAnnotation ann => OSD.onDeleteAnnotation ann
  | Op.onCancelAnnotation ann => OSD.onCancelAnnotation ann
  | Op.addAnnotation ann => OSD.addAnnotation ann
  | .cancelSelected => OSD.cancelSelected
  | .fitBounds arg immediately => OSD.fitBounds arg immediately
  | .getAnnotations layerResult => discard (OSD.getAnnotations layerResult)
  | .getSelected layerResult => discard (OSD.getSelected layerResult)
  | .getSelectedImageSnippet => OSD.getSelectedImageSnippet
  | .panTo arg immediately => OSD.panTo arg immediately
  | Op.removeAnnotation ann => OSD.removeAnnotation ann
  | .saveSelected toAnnotation => OSD.saveSelected toAnnotation
  | Op.selectAnnotation arg layerResult => discard (OSD.selectAnnotation arg layerResult)
  | .setAnnotations annotations => OSD.setAnnotations annotations
  | .setDrawingEnabled enable => OSD.setDrawingEnabled enable
  | .setDrawingTool shape => OSD.setDrawingTool shape
  | .updateSelected ann => OSD.updateSelected ann

/-- The world when the component is mounted. -/
def initialWorld (N : Type) (nextRef : Nat) : World N :=
  { state := initialState N, nextRef := nextRef, log := [] }

/-- The worlds reached from the initial one by a sequence of operations; an operation
that throws leaves the world it reached. -/
inductive Reachable {N : Type} [JsNumber N] : World N → Prop
  | init (nextRef : Nat) : Reachable (initialWorld N nextRef)
  | step (w : World N) (op : Op N) : Reachable w → Reachable (op.run w).world

/-- The calls made since the world `w`, in order. -/
def Completion.callsSince {N α : Type} (c : Completion N α) (w : World N) : List (Call N) :=
  c.world.calls.drop w.calls.length

/-! ## Example values -/

/-- An existing annotation with a string target. -/
def exampleAnnotation : Annotation Int :=
  { ref := 0, id := "#a1", isSelection := false, target := Json.str ['#', 'x'],
    body := Json.null }

/-- A selection that was drawn and not saved yet. -/
def exampleSelection : Annotation Int :=
  { ref := 1, id := "#s1", isSelection := true, target := Json.str ['#', 'y'],
    body := Json.null }

/-- A world in which the pending target is the empty string. -/
def emptyTargetWorld : World Int :=
  { state :=
      { selectedAnnotation := some exampleAnnotation, selectedDOMElement := some 7,
        modifiedTarget := Json.str [], beforeHeadlessModify := none },
    nextRef := 2, log := [] }

/-- The world after the overlay reported that the existing annotation was selected. -/
def selectedWorld : World Int :=
  (handleSelect { ann := some exampleAnnotation, element := some 7, skipEvent := false }
    (initialWorld Int 2)).world

/-! ## The component: theorems -/

theorem callsSince_normal {N α : Type} (w : World N) (x : α) (s : State N) (n : Nat)
    (l : List (Call N × State N)) :
    (Completion.normal x { state := s, nextRef := n, log := w.log ++ l }).callsSince w =
      l.map Prod.fst := by
  simp [Completion.callsSince, Completion.world, World.calls]

theorem callsSince_abrupt {N α : Type} (w : World N) (e : JsError) (s : State N) (n : Nat)
    (l : List (Call N × State N)) :
    (Completion.abrupt e { state := s, nextRef := n, log := w.log ++ l } :
      Completion N α).callsSince w = l.map Prod.fst := by
  simp [Completion.callsSince, Completion.world, World.calls]

theorem callsSince_self {N α : Type} (w : World N) (x : α) :
    (Completion.normal x w).callsSince w = [] := by
  simp [Completion.callsSince, Completion.world, World.calls]

/-- What `onCreateOrUpdateAnnotation` does, in full. -/
theorem onCreateOrUpdateAnnotation_eq {N : Type} [JsNumber N] (method : SaveMethod)
    (ann : Annotation N) (previous : Option ( Annotation N)) (w : World N) :
    onCreateOrUpdateAnnotation method ann previous w =
      .normal ()
        { state := w.state.cleared,
          nextRef := w.nextRef + 1 + (if previous.isSome then 1 else 0),
          log := w.log ++
            [(Call.save method
                (ann.cloned (if w.state.modifiedTarget.truthy then some w.state.modifiedTarget
                  else none) w.nextRef)
                (match previous with
                  | some p => SaveArg.previous (p.cloned none (w.nextRef + 1))
                  | none => SaveArg.overrideCallback ann), w.state),
             (Call.deselect, w.state.cleared),
             (Call.addOrUpdateAnnotation
                (ann.cloned (if w.state.modifiedTarget.truthy then some w.state.modifiedTarget
                  else none) w.nextRef) previous, w.state.cleared)] } := by
  cases previous <;> cases h : w.state.modifiedTarget.truthy <;>
    simp [ onCreateOrUpdateAnnotation, bind, Action.bind, getState, clone, call, clearState,
      setState, State.merge, State.cleared, h]

/-- What `onCancelAnnotation` does, in full. -/
theorem onCancelAnnotation_eq {N : Type} (ann : Option ( Annotation N)) (w : World N) :
    onCancelAnnotation ann w =
      match ann with
      | none =>
        .abrupt .typeError
          { state := w.state.cleared, nextRef := w.nextRef,
            log := w.log ++ [(Call.deselect, w.state.cleared)] }
      | some a =>
        .normal ()
          { state := w.state.cleared, nextRef := w.nextRef,
            log := w.log ++ ((Call.deselect, w.state.cleared) ::
              (if a.isSelection then [(Call.onSelectionCanceled a, w.state.cleared)] else [])) } := by
  cases ann with
  | none =>
    simp [ onCancelAnnotation, bind, Action.bind, call, clearState, setState, State.merge,
      State.cleared, throwJs]
  | some a =>
    cases h : a.isSelection <;>
      simp [ onCancelAnnotation, bind, Action.bind, call, clearState, setState, State.merge,
        State.cleared, h, pure]

/-- What `clearState` does. -/
theorem clearState_eq {N : Type} (w : World N) :
    clearState w = .normal () { state := w.state.cleared, nextRef := w.nextRef, log := w.log } := by
  simp [clearState, setState, State.merge, State.cleared]

/-- What `cloneAll` does: it allocates one object for each annotation and makes no call. -/
theorem cloneAll_world {N : Type} (l : List ( Annotation N)) (w : World N) :
    ∃ cs, cloneAll l w =
      .normal cs { state := w.state, nextRef := w.nextRef + l.length, log := w.log } := by
  induction l generalizing w with
  | nil => exact ⟨[], by simp [cloneAll, pure]⟩
  | cons a rest ih =>
    obtain ⟨cs, hcs⟩ := ih { w with nextRef := w.nextRef + 1 }
    refine ⟨a.cloned none w.nextRef :: cs, ?_⟩
    simp [cloneAll, bind, Action.bind, clone, hcs, pure]
    omega

/-- No operation changes `beforeHeadlessModify`. -/
theorem beforeHeadlessModify_run {N : Type} [JsNumber N] (op : Op N) (w : World N) :
    (op.run w).world.state.beforeHeadlessModify = w.state.beforeHeadlessModify := by
  cases op with
  | handleCreateSelection selection =>
    simp [Op.run, handleCreateSelection, bind, Action.bind, clone, call, Completion.world]
  | handleSelect evt =>
    rcases evt with ⟨_ | a, element, skip⟩
    · simp [Op.run, handleSelect, clearState_eq, Completion.world, State.cleared]
    · cases h1 : a.isSelection <;> cases skip <;>
        simp [Op.run, handleSelect, bind, Action.bind, clone, call, setState, State.merge,
          Completion.world, h1, pure]
  | handleUpdateTarget element target jsonCopy =>
    cases jsonCopy <;>
      simp [Op.run, handleUpdateTarget, bind, Action.bind, call, setState, State.merge,
        Completion.world, throwJs]
  | handleMoveSelection element =>
    simp [Op.run, handleMoveSelection, setState, State.merge, Completion.world]
  | overrideAnnotationId original forcedId =>
    cases h : w.state.selectedAnnotation <;>
      simp [Op.run, overrideAnnotationId, bind, Action.bind, getState, setStateThen, call,
        State.merge, Completion.world, h]
  | onCreateOrUpdateAnnotation method ann previous =>
    simp [Op.run, onCreateOrUpdateAnnotation_eq, Completion.world, State.cleared]
  | onDeleteAnnotation ann =>
    simp [Op.run, onDeleteAnnotation, bind, Action.bind, call, clearState, setState,
      State.merge, Completion.world]
  | onCancelAnnotation ann =>
    cases ann <;> simp [Op.run, onCancelAnnotation_eq, Completion.world, State.cleared]
  | addAnnotation ann =>
    simp [Op.run, addAnnotation, bind, Action.bind, clone, call, Completion.world]
  | cancelSelected =>
    cases h : w.state.selectedAnnotation <;>
      simp [Op.run, cancelSelected, bind, Action.bind, getState, h, onCancelAnnotation_eq,
        Completion.world, State.cleared, pure]
  | fitBounds arg immediately => simp [Op.run, fitBounds, call, Completion.world]
  | getAnnotations layerResult =>
    obtain ⟨cs, hcs⟩ := cloneAll_world layerResult
      { w with log := w.log ++ [(Call.getAnnotations, w.state)] }
    simp [Op.run, discard, getAnnotations, bind, Action.bind, call, hcs, Completion.world]
  | getSelected layerResult =>
    cases layerResult <;>
      simp [Op.run, discard, getSelected, bind, Action.bind, call, clone, Completion.world, pure]
  | getSelectedImageSnippet => simp [Op.run, getSelectedImageSnippet, call, Completion.world]
  | panTo arg immediately => simp [Op.run, panTo, call, Completion.world]
  | removeAnnotation ann =>
    simp [Op.run, removeAnnotation, bind, Action.bind, clone, call, Completion.world]
  | saveSelected toAnnotation =>
    rcases h : w.state.selectedAnnotation with _ | a
    · simp [Op.run, saveSelected, bind, Action.bind, getState, h, Completion.world, pure]
    · cases h1 : a.isSelection
      · cases h2 : w.state.beforeHeadlessModify <;>
          simp [Op.run, saveSelected, bind, Action.bind, getState, h, h1, h2, call,
            onCancelAnnotation_eq, onCreateOrUpdateAnnotation_eq, Completion.world,
            State.cleared]
      · simp [Op.run, saveSelected, bind, Action.bind, getState, h, h1,
          onCreateOrUpdateAnnotation_eq, Completion.world, State.cleared]
  | selectAnnotation arg layerResult =>
    cases layerResult <;>
      simp [Op.run, discard, selectAnnotation, bind, Action.bind, call, clone, clearState,
        setState, State.merge, Completion.world, pure]
  | setAnnotations annotations =>
    obtain ⟨cs, hcs⟩ := cloneAll_world annotations w
    simp [Op.run, setAnnotations, bind, Action.bind, call, hcs, Completion.world]
  | setDrawingEnabled enable => simp [Op.run, setDrawingEnabled, call, Completion.world]
  | setDrawingTool shape => simp [Op.run, setDrawingTool, call, Completion.world]
  | updateSelected ann =>
    cases h : w.state.selectedAnnotation <;>
      simp [Op.run, updateSelected, bind, Action.bind, getState, setState, State.merge, call,
        Completion.world, h]

/-- In every reachable world `beforeHeadlessModify` is unset. -/
theorem reachable_beforeHeadlessModify {N : Type} [JsNumber N] (w : World N)
    (h : Reachable w) : w.state.beforeHeadlessModify = none := by
  induction h with
  | init nextRef => rfl
  | step w op _ ih => rw [beforeHeadlessModify_run, ih]

/-- What `saveSelected` does when the selected annotation is not a selection and
`beforeHeadlessModify` is unset. -/
theorem saveSelected_cancel_eq {N : Type} [JsNumber N]
    ( toAnnotation : Annotation N → Annotation N) (w : World N) (a : Annotation N)
    (hsel : w.state.selectedAnnotation = some a) (hnot : a.isSelection = false)
    (hbefore : w.state.beforeHeadlessModify = none) :
    saveSelected toAnnotation w =
      .abrupt JsError.typeError
        { state := w.state.cleared, nextRef := w.nextRef,
          log := w.log ++ [(Call.consoleLog "No change - canceling", w.state),
            (Call.deselect, w.state.cleared)] } := by
  simp [saveSelected, bind, Action.bind, getState, hsel, hnot, hbefore, call,
    onCancelAnnotation_eq, State.cleared]

/-- What `handleUpdateTarget` does when the engine returns the copy `c`: it records the
element and the target, keeps the selected annotation, and reports `c` once. -/
theorem handleUpdateTarget_eq {N : Type} (element : Option DomElement) (t c : Json N)
    (w : World N) :
    handleUpdateTarget element t (Except.ok c) w =
      .normal ()
        { state :=
            { selectedAnnotation := w.state.selectedAnnotation, selectedDOMElement := element,
              modifiedTarget := t, beforeHeadlessModify := w.state.beforeHeadlessModify },
          nextRef := w.nextRef,
          log := w.log ++
            [(Call.onSelectionTargetChanged c,
              { selectedAnnotation := w.state.selectedAnnotation, selectedDOMElement := element,
                modifiedTarget := t,
                beforeHeadlessModify := w.state.beforeHeadlessModify })] } := by
  simp [handleUpdateTarget, bind, Action.bind, setState, State.merge, call]

/-! ## The claims -/

/-- C1, as stated, fails: with the empty string as pending target (a target that is not
null) the annotation handed to the host handler is `annotation.clone()`, whose target is the
annotation's own, and not `annotation.clone({ target: modifiedTarget })`. -/
theorem onCreateOrUpdateAnnotation_nonnull_target_not_merged :
    emptyTargetWorld.state.modifiedTarget ≠ Json.null ∧
    (savedBy (( onCreateOrUpdateAnnotation SaveMethod.onAnnotationCreated exampleAnnotation none
        emptyTargetWorld).callsSince emptyTargetWorld)).map (fun x => x.2.1) =
      [ exampleAnnotation.cloned none emptyTargetWorld.nextRef] ∧
    exampleAnnotation.cloned none emptyTargetWorld.nextRef ≠
      exampleAnnotation.cloned (some emptyTargetWorld.state.modifiedTarget)
        emptyTargetWorld.nextRef := by
  refine ⟨by simp [emptyTargetWorld], ?_, ?_⟩
  · rw [onCreateOrUpdateAnnotation_eq, callsSince_normal]
    simp [savedBy, emptyTargetWorld, Json.truthy]
  · simp [ Annotation.cloned, exampleAnnotation, emptyTargetWorld]

/-- C1 (amended): `onCreateOrUpdateAnnotation(method)(annotation, previous)` hands the host
handler exactly one annotation: `annotation.clone({ target: modifiedTarget })`, whose target
is the pending target, when `state.modifiedTarget` is truthy, and `annotation.clone()`, with
the annotation's own target, when it is falsy (null included). -/
theorem onCreateOrUpdateAnnotation_merges_truthy_target {N : Type} [JsNumber N]
    (method : SaveMethod) (ann : Annotation N) (previous : Option ( Annotation N))
    (w : World N) :
    (savedBy (( onCreateOrUpdateAnnotation method ann previous w).callsSince w)).map
        (fun x => x.2.1) =
      [if w.state.modifiedTarget.truthy then ann.cloned (some w.state.modifiedTarget) w.nextRef
        else ann.cloned none w.nextRef] ∧
    (ann.cloned (some w.state.modifiedTarget) w.nextRef).target = w.state.modifiedTarget ∧
    (ann.cloned none w.nextRef).target = ann.target ∧
    (Json.null : Json N).truthy = false := by
  refine ⟨?_, rfl, rfl, rfl⟩
  rw [onCreateOrUpdateAnnotation_eq, callsSince_normal]
  cases h : w.state.modifiedTarget.truthy <;> simp [savedBy]

/-- C2 (the code at the failing input): when the selected annotation is not a selection and
`beforeHeadlessModify` is unset, `saveSelected` does not complete: after `console.log`, the
state update and `annotationLayer.deselect()` it throws a `TypeError`, because
`onCancelAnnotation` is called without its argument. No host save handler is invoked. -/
theorem saveSelected_no_change_throws {N : Type} [JsNumber N]
    ( toAnnotation : Annotation N → Annotation N) (w : World N) (a : Annotation N)
    (hsel : w.state.selectedAnnotation = some a) (hnot : a.isSelection = false)
    (hbefore : w.state.beforeHeadlessModify = none) :
    (saveSelected toAnnotation w).error = some JsError.typeError ∧
    (saveSelected toAnnotation w).world.state = w.state.cleared ∧
    (saveSelected toAnnotation w).callsSince w =
      [Call.consoleLog "No change - canceling", Call.deselect] := by
  rw [saveSelected_cancel_eq toAnnotation w a hsel hnot hbefore, callsSince_abrupt]
  exact ⟨rfl, rfl, rfl⟩

/-- C2 at a concrete state: the existing annotation is selected and nothing was modified. -/
theorem saveSelected_no_change_throws_witness :
    (saveSelected id selectedWorld).error = some JsError.typeError ∧
    (saveSelected id selectedWorld).world.state = selectedWorld.state.cleared ∧
    (saveSelected id selectedWorld).callsSince selectedWorld =
      [Call.consoleLog "No change - canceling", Call.deselect] :=
  saveSelected_no_change_throws id selectedWorld exampleAnnotation rfl rfl rfl

/-- C3: `overrideAnnotationId(originalAnnotation)(forcedId)` calls
`annotationLayer.overrideId(originalAnnotation.id, forcedId)` exactly once; when an
annotation is selected the state at the moment of that call is already the cleared one, and
when nothing is selected the state is left unchanged. -/
theorem overrideAnnotationId_closes_editor_first {N : Type} ( originalAnnotation : Annotation N)
    (forcedId : String) (w : World N) :
    overrideAnnotationId originalAnnotation forcedId w =
      (match w.state.selectedAnnotation with
        | some _ =>
          .normal ()
            { state :=
                { selectedAnnotation := none, selectedDOMElement := none,
                  modifiedTarget := Json.null,
                  beforeHeadlessModify := w.state.beforeHeadlessModify },
              nextRef := w.nextRef,
              log := w.log ++
                [(Call.overrideId originalAnnotation.id forcedId,
                  { selectedAnnotation := none, selectedDOMElement := none,
                    modifiedTarget := Json.null,
                    beforeHeadlessModify := w.state.beforeHeadlessModify })] }
        | none =>
          .normal ()
            { state := w.state, nextRef := w.nextRef,
              log := w.log ++ [(Call.overrideId originalAnnotation.id forcedId, w.state)] }) ∧
    (overrideAnnotationId originalAnnotation forcedId w).callsSince w =
      [Call.overrideId originalAnnotation.id forcedId] := by
  cases h : w.state.selectedAnnotation <;>
    simp [overrideAnnotationId, bind, Action.bind, getState, setStateThen, call, State.merge,
      h, Completion.callsSince, Completion.world, World.calls]

/-- C4: `handleSelect` invokes `props.onAnnotationSelected` exactly once, with
`annotation.clone()`, when the annotation is present, is not a selection and `skipEvent` is
falsy, and makes no call at all otherwise; the clone is a new object, different from the
overlay's own. -/
theorem handleSelect_forwards_existing {N : Type} (evt : SelectEvent N) (w : World N)
    (hfresh : ∀ a, evt.ann = some a → a.ref < w.nextRef) :
    (handleSelect evt w).callsSince w =
      (match evt.ann with
        | some a =>
          if a.isSelection = false ∧ evt.skipEvent = false then
            [Call.onAnnotationSelected (a.cloned none w.nextRef)]
          else []
        | none => []) ∧
    ((∃ c, Call.onAnnotationSelected c ∈ (handleSelect evt w).callsSince w) ↔
      ∃ a, evt.ann = some a ∧ a.isSelection = false ∧ evt.skipEvent = false) ∧
    (∀ a, evt.ann = some a → a.cloned none w.nextRef ≠ a) := by
  have key : (handleSelect evt w).callsSince w =
      (match evt.ann with
        | some a =>
          if a.isSelection = false ∧ evt.skipEvent = false then
            [Call.onAnnotationSelected (a.cloned none w.nextRef)]
          else []
        | none => []) := by
    rcases evt with ⟨_ | a, element, skip⟩
    · simp [handleSelect, clearState_eq, Completion.callsSince, Completion.world, World.calls]
    · cases h1 : a.isSelection <;> cases skip <;>
        simp [handleSelect, bind, Action.bind, clone, call, setState, State.merge, h1, pure,
          Completion.callsSince, Completion.world, World.calls]
  refine ⟨key, ?_, ?_⟩
  · rw [key]
    rcases evt with ⟨_ | a, element, skip⟩
    · simp
    · cases h1 : a.isSelection <;> cases skip <;> simp [h1]
  · intro a ha hEq
    have h1 : (a.cloned none w.nextRef).ref = a.ref := by rw [hEq]
    have h2 := hfresh a ha
    simp [ Annotation.cloned] at h1
    omega

/-- C4 at a concrete event: the overlay selects the existing annotation. -/
theorem handleSelect_forwards_existing_witness :
    (handleSelect { ann := some exampleAnnotation, element := some 7, skipEvent := false }
        (initialWorld Int 2)).callsSince (initialWorld Int 2) =
      [Call.onAnnotationSelected ( exampleAnnotation.cloned none 2)] :=
  (handleSelect_forwards_existing
    { ann := some exampleAnnotation, element := some 7, skipEvent := false }
    (initialWorld Int 2)
    (by intro a ha; cases ha; decide)).1

/-- C5: after `handleSelect` with an absent annotation, after
`onCreateOrUpdateAnnotation(method)(annotation, previous)`, after
`onDeleteAnnotation(annotation)` and after `onCancelAnnotation(annotation)` with an
annotation, the state is cleared: `selectedAnnotation`, `selectedDOMElement` and
`modifiedTarget` have the values of the initial state; and `clearState` is idempotent. -/
theorem editing_session_end_clears_state {N : Type} [JsNumber N] (w : World N) :
    (∀ element skipEvent,
      (handleSelect { ann := none, element := element, skipEvent := skipEvent } w).world.state =
        w.state.cleared) ∧
    (∀ method ann previous,
      ( onCreateOrUpdateAnnotation method ann previous w).world.state = w.state.cleared) ∧
    (∀ ann, ( onDeleteAnnotation ann w).world.state = w.state.cleared) ∧
    (∀ ann, ( onCancelAnnotation (some ann) w).world.state = w.state.cleared) ∧
    (w.state.cleared.selectedAnnotation = State.selectedAnnotation (initialState N) ∧
      w.state.cleared.selectedDOMElement = (initialState N).selectedDOMElement ∧
      w.state.cleared.modifiedTarget = (initialState N).modifiedTarget) ∧
    (w.state.cleared.selectedAnnotation = none ∧ w.state.cleared.selectedDOMElement = none ∧
      w.state.cleared.modifiedTarget = Json.null) ∧
    (clearState (clearState w).world = clearState w) := by
  refine ⟨?_, ?_, ?_, ?_, ⟨rfl, rfl, rfl⟩, ⟨rfl, rfl, rfl⟩, ?_⟩
  · intro element skipEvent
    simp [handleSelect, clearState_eq, Completion.world]
  · intro method ann previous
    simp [onCreateOrUpdateAnnotation_eq, Completion.world]
  · intro ann
    simp [ onDeleteAnnotation, bind, Action.bind, call, clearState_eq, Completion.world]
  · intro ann
    simp [onCancelAnnotation_eq, Completion.world]
  · simp [clearState_eq, Completion.world, State.cleared]

/-- C7: `onCreateOrUpdateAnnotation(method)(annotation, previous)` makes exactly three
calls, in this order: the host handler `props[method](a, second)`, where `second` is
`previous.clone()` when `previous` is given and the id-override callback of `annotation`
otherwise; `annotationLayer.deselect()`; and `annotationLayer.addOrUpdateAnnotation(a,
previous)` with the same `a` and the original `previous`. -/
theorem onCreateOrUpdateAnnotation_call_order {N : Type} [JsNumber N] (method : SaveMethod)
    (ann : Annotation N) (previous : Option ( Annotation N)) (w : World N) :
    ∃ a : Annotation N,
      ( onCreateOrUpdateAnnotation method ann previous w).callsSince w =
        [Call.save method a
            (match previous with
              | some p => SaveArg.previous (p.cloned none (w.nextRef + 1))
              | none => SaveArg.overrideCallback ann),
          Call.deselect,
          Call.addOrUpdateAnnotation a previous] ∧
      ( onCreateOrUpdateAnnotation method ann previous w).error = none ∧
      (∀ p, previous = some p → p.ref < w.nextRef → p.cloned none (w.nextRef + 1) ≠ p) := by
  refine ⟨ann.cloned (if w.state.modifiedTarget.truthy then some w.state.modifiedTarget
    else none) w.nextRef, ?_, ?_, ?_⟩
  · rw [onCreateOrUpdateAnnotation_eq, callsSince_normal]
    rfl
  · rw [onCreateOrUpdateAnnotation_eq]
    rfl
  · intro p _ hp hEq
    have h1 : (p.cloned none (w.nextRef + 1)).ref = p.ref := by rw [hEq]
    simp [ Annotation.cloned] at h1
    omega

/-- C8: `cancelSelected` does nothing when no annotation is selected; when `s` is selected
it behaves as `onCancelAnnotation(s)`, which clears the state, calls
`annotationLayer.deselect()`, and then invokes `props.onSelectionCanceled(s)` exactly when
`s` is a selection. -/
theorem cancelSelected_forwards_unsaved {N : Type} (w : World N) :
    match w.state.selectedAnnotation with
    | none => cancelSelected w = .normal () w
    | some s =>
      cancelSelected w = onCancelAnnotation (some s) w ∧
      ( onCancelAnnotation (some s) w).error = none ∧
      ( onCancelAnnotation (some s) w).world.state = w.state.cleared ∧
      ( onCancelAnnotation (some s) w).callsSince w =
        (if s.isSelection then [Call.deselect, Call.onSelectionCanceled s]
          else [Call.deselect]) := by
  cases h : w.state.selectedAnnotation with
  | none => simp [cancelSelected, bind, Action.bind, getState, h, pure]
  | some s =>
    refine ⟨?_, ?_, ?_, ?_⟩
    · simp [cancelSelected, bind, Action.bind, getState, h]
    · rw [onCancelAnnotation_eq]; rfl
    · rw [onCancelAnnotation_eq]; rfl
    · rw [onCancelAnnotation_eq]
      simp only [callsSince_normal]
      cases s.isSelection <;> simp

/-- C9: no operation of the component changes `beforeHeadlessModify`, so in every world
reachable from the initial one by the component's handlers and API methods it is unset;
there `saveSelected` never invokes
`props.onAnnotationUpdated`, and it invokes a host save handler only when the selected
annotation `a` is a selection: then it behaves as
`onCreateOrUpdateAnnotation('onAnnotationCreated')(a.toAnnotation(), a)`, which invokes
`props.onAnnotationCreated` once. -/
theorem saveSelected_never_updates {N : Type} [JsNumber N] (w : World N) (h : Reachable w)
    ( toAnnotation : Annotation N → Annotation N) :
    (∀ (w0 : World N) (op : Op N),
      (op.run w0).world.state.beforeHeadlessModify = w0.state.beforeHeadlessModify) ∧
    w.state.beforeHeadlessModify = none ∧
    (∀ x ∈ savedBy ((saveSelected toAnnotation w).callsSince w),
      x.1 = SaveMethod.onAnnotationCreated) ∧
    savedBy ((saveSelected toAnnotation w).callsSince w) =
      (match w.state.selectedAnnotation with
        | none => []
        | some a =>
          if a.isSelection then
            [(SaveMethod.onAnnotationCreated,
              ( toAnnotation a).cloned
                (if w.state.modifiedTarget.truthy then some w.state.modifiedTarget else none)
                w.nextRef,
              SaveArg.previous (a.cloned none (w.nextRef + 1)))]
          else []) ∧
    (∀ a, w.state.selectedAnnotation = some a → a.isSelection = true →
      saveSelected toAnnotation w =
        onCreateOrUpdateAnnotation SaveMethod.onAnnotationCreated ( toAnnotation a) (some a) w) := by
  have hb := reachable_beforeHeadlessModify w h
  have hcall : ∀ a, w.state.selectedAnnotation = some a → a.isSelection = true →
      saveSelected toAnnotation w =
        onCreateOrUpdateAnnotation SaveMethod.onAnnotationCreated ( toAnnotation a)
          (some a) w := by
    intro a hs h1
    simp [saveSelected, bind, Action.bind, getState, hs, h1]
  have key : savedBy ((saveSelected toAnnotation w).callsSince w) =
      (match w.state.selectedAnnotation with
        | none => []
        | some a =>
          if a.isSelection then
            [(SaveMethod.onAnnotationCreated,
              ( toAnnotation a).cloned
                (if w.state.modifiedTarget.truthy then some w.state.modifiedTarget else none)
                w.nextRef,
              SaveArg.previous (a.cloned none (w.nextRef + 1)))]
          else []) := by
    rcases hs : w.state.selectedAnnotation with _ | a
    · simp [saveSelected, bind, Action.bind, getState, hs, pure, callsSince_self, savedBy]
    · cases h1 : a.isSelection
      · rw [saveSelected_cancel_eq toAnnotation w a hs h1 hb, callsSince_abrupt]
        simp [savedBy, h1]
      · rw [hcall a hs h1, onCreateOrUpdateAnnotation_eq, callsSince_normal]
        simp [savedBy, h1]
  refine ⟨fun w0 op => beforeHeadlessModify_run op w0, hb, ?_, key, hcall⟩
  rw [key]
  rcases w.state.selectedAnnotation with _ | a
  · simp
  · cases a.isSelection <;> simp

/-- C9 at a concrete reachable world: the existing annotation was selected. -/
theorem saveSelected_never_updates_witness :
    selectedWorld.state.beforeHeadlessModify = none ∧
    savedBy ((saveSelected id selectedWorld).callsSince selectedWorld) = [] := by
  have h := saveSelected_never_updates selectedWorld
    (Reachable.step (initialWorld Int 2)
      (Op.handleSelect { ann := some exampleAnnotation, element := some 7, skipEvent := false })
      (Reachable.init 2)) id
  exact ⟨h.2.1, h.2.2.2.1⟩

end OSD
